import Mathlib

/- Verification of the parking-ledger front end in src/public/app.js.

   Shallow embedding conventions:
   - Timestamps are integers (milliseconds since the epoch, the value of
     `Date.now()`; `new Date(b) - new Date(a)` is plain integer subtraction).
   - Locale display strings (`entryDisplay`, `exitDisplay`), DOM reads and
     notifications are presentation-only and omitted; form inputs become
     function parameters.
   - Network calls are modelled by passing the remote's (already JSON-decoded)
     response as an `Option` parameter; `none` means the fetch threw or the
     envelope had `ok: false`. -/

namespace Parking

/-- Record status: the strings `'IN'` / `'OUT'` in app.js. -/
inductive Status where
  | IN : Status
  | OUT : Status
deriving DecidableEq, Repr

/-- One parking record, i.e. one object of the `db` array in app.js.
    `token` is optional because imported or malformed rows may lack it
    (`r.token || 0` in `getNextToken`). -/
structure Record where
  id : Nat
  token : Option Nat
  lorry : String
  driver : String
  phone : String
  remarks : String
  entryISO : Int
  exitISO : Option Int
  days : Option Nat
  amount : Option Nat
  status : Status
deriving DecidableEq, Repr

/-- The mutable globals of app.js — `db`, `dailyRate`, `backendOnline` — plus
    the localStorage copies (`kpr_db`, `kpr_rate`) written by `saveLocal` and
    by the direct `localStorage.setItem` in `saveRate`. -/
structure State where
  db : List Record
  dailyRate : Nat
  backendOnline : Bool
  storedDb : List Record
  storedRate : Nat
deriving DecidableEq, Repr

/-- `saveLocal()` (app.js 56-59). -/
def saveLocal (s : State) : State :=
  { s with storedDb := s.db, storedRate := s.dailyRate }

/-- `calcDays(entryISO, exitISO)` (app.js 146-150):
    `diff = new Date(exitISO) - new Date(entryISO);
     if (diff <= 0) return 1;
     return Math.max(1, Math.ceil(diff / 86400000));`
    For positive integer `diff`, `Math.ceil(diff / 86400000)` is the natural
    ceiling division `(diff + 86399999) / 86400000`. -/
def calcDays (entryISO exitISO : Int) : Nat :=
  let diff := exitISO - entryISO
  if diff ≤ 0 then 1
  else max 1 ((diff.toNat + 86399999) / 86400000)

/-- `calcAmt(days)` (app.js 151): `days * dailyRate`, reading the global
    `dailyRate` at call time; the global is passed explicitly here. -/
def calcAmt (dailyRate days : Nat) : Nat := days * dailyRate

/-- `getNextToken()` (app.js 72-75): `1` on an empty `db`, otherwise
    `Math.max(...db.map(r => r.token || 0)) + 1`. -/
def getNextToken (db : List Record) : Nat :=
  if db.isEmpty then 1
  else (db.map (fun r => r.token.getD 0)).foldr max 0 + 1

/-- Error taxonomy (spec §7), as surfaced by app.js error notifications. -/
inductive ErrKind where
  | InvalidInput
  | DuplicateActiveVehicle
  | NotFound
  | AlreadyExited
  | RemoteError
deriving DecidableEq, Repr

/-- Result of a mutating operation that yields a record. `err` carries the
    state at the early `return`, which app.js leaves untouched. -/
inductive OpResult where
  | ok (s : State) (r : Record)
  | err (e : ErrKind) (s : State)
deriving DecidableEq, Repr

/-- Result of a mutating operation with no record payload. -/
inductive DelResult where
  | ok (s : State)
  | err (e : ErrKind) (s : State)
deriving DecidableEq, Repr

/-- JS `String.prototype.trim`: strip leading and trailing whitespace.
    (Defined by structural recursion on the character list so that it is
    kernel-computable, unlike `String.trim`.) -/
def jsTrim (x : String) : String :=
  ⟨((x.data.dropWhile Char.isWhitespace).reverse.dropWhile
      Char.isWhitespace).reverse⟩

/-- JS `String.prototype.toUpperCase` (over `Char.toUpper`). -/
def jsUpper (x : String) : String := ⟨x.data.map Char.toUpper⟩

/-- `value.trim() || '--'`, the defaulting used for driver/phone/remarks in
    `recordEntry` (app.js 164-166). -/
def orDash (s : String) : String :=
  if jsTrim s = "" then "--" else jsTrim s

/-- `row[...] || '--'` for optional import columns (app.js 775-777). -/
def orDashOpt (o : Option String) : String :=
  match o with
  | some s => if s = "" then "--" else s
  | none => "--"

/-- JS `Array.prototype.findIndex`: index of the first element satisfying
    `p`, or none. -/
def findIdx (p : α → Bool) : List α → Option Nat
  | [] => none
  | a :: l => if p a then some 0 else (findIdx p l).map (· + 1)

/-- The `findIndex` predicate of `processExit` (app.js 289):
    `r.token === num && r.status === 'IN'`. -/
def exitPred (tok : Nat) (r : Record) : Bool :=
  decide (r.token = some tok ∧ r.status = Status.IN)

/-- The duplicate-check predicate of `recordEntry` (app.js 159):
    `r.lorry === lorry && r.status === 'IN'`. -/
def dupPred (lorry : String) (r : Record) : Bool :=
  decide (r.lorry = lorry ∧ r.status = Status.IN)

/-- `recordEntry()` (app.js 154-212). `remote` is the decoded response of
    `POST /records` (`none` = the fetch failed); `now` stands for the single
    instant read by `Date.now()` / `new Date().toISOString()`. -/
def recordEntry (remote : Option Record) (now : Int)
    (lorryRaw driverRaw phoneRaw remarksRaw : String) (s : State) : OpResult :=
  if jsUpper (jsTrim lorryRaw) = "" then .err .InvalidInput s
  else
    match s.db.find? (dupPred (jsUpper (jsTrim lorryRaw))) with
    | some _ => .err .DuplicateActiveVehicle s
    | none =>
      if s.backendOnline then
        match remote with
        | some r' => .ok (saveLocal { s with db := r' :: s.db }) r'
        | none => .err .RemoteError s
      else
        let r' : Record :=
          { id := now.toNat, token := some (getNextToken s.db),
            lorry := jsUpper (jsTrim lorryRaw),
            driver := orDash driverRaw, phone := orDash phoneRaw,
            remarks := orDash remarksRaw, entryISO := now, exitISO := none,
            days := none, amount := none, status := Status.IN }
        .ok (saveLocal { s with db := r' :: s.db }) r'

/-- `processExit()` (app.js 277-332), with the token already parsed to a
    number and the response of `PATCH /records/{id}/exit` passed as `remote`.
    The inner `none` branch of the index lookup is unreachable: `findIdx`
    only returns valid indices. -/
def processExit (remote : Option Record) (now : Int) (tok : Nat)
    (s : State) : OpResult :=
  match findIdx (exitPred tok) s.db with
  | none =>
    if s.db.any (fun r => decide (r.token = some tok)) then
      .err .AlreadyExited s
    else .err .NotFound s
  | some idx =>
    match s.db.get? idx with
    | none => .err .NotFound s
    | some r0 =>
      if s.backendOnline then
        match remote with
        | some r' => .ok (saveLocal { s with db := s.db.set idx r' }) r'
        | none => .err .RemoteError s
      else
        let days := calcDays r0.entryISO now
        let amt := calcAmt s.dailyRate days
        let r' := { r0 with
          exitISO := some now, days := some days,
          amount := some amt, status := Status.OUT }
        .ok (saveLocal { s with db := s.db.set idx r' }) r'

/-- `deleteRecord(id)` (app.js 688-703); `remoteOk` is whether
    `DELETE /records/{id}` succeeded (only consulted when online). -/
def deleteRecord (remoteOk : Bool) (id : Nat) (s : State) : DelResult :=
  if s.backendOnline && !remoteOk then .err .RemoteError s
  else .ok (saveLocal { s with db := s.db.filter (fun r => decide (r.id ≠ id)) })

/-- `clearAllData()` (app.js 705-723); `remoteOk` is whether
    `DELETE /records` succeeded (only consulted when online). -/
def clearAllData (remoteOk : Bool) (s : State) : DelResult :=
  if s.backendOnline && !remoteOk then .err .RemoteError s
  else .ok (saveLocal { s with db := [] })

/-- `parseInt(x) || 120` / `parseFloat(x) || 120`: a missing or zero/NaN
    parse falls back to 120. -/
def rateOr120 (v : Option Nat) : Nat :=
  match v with
  | some n => if n = 0 then 120 else n
  | none => 120

/-- `saveRate()` (app.js 82-101). The new rate is written to the global and
    to localStorage *before* the server is contacted; a failed
    `POST /settings` only changes the notification text, so the resulting
    state does not depend on `remoteOk`. -/
def saveRate (vParsed : Option Nat) (_remoteOk : Bool) (s : State) : State :=
  let v := rateOr120 vParsed
  { s with dailyRate := v, storedRate := v }

/-- `syncFromServer()` (app.js 40-54). `remote` bundles the responses of
    `GET /records?limit=5000` and `GET /settings` (`none` = any failure). -/
def syncFromServer (remote : Option (List Record × Option Nat)) (s : State) :
    State :=
  match remote with
  | none => { s with backendOnline := false }
  | some (records, rate) =>
    saveLocal { s with db := records, dailyRate := rateOr120 rate,
                       backendOnline := true }

/-- One parsed spreadsheet row, the output of `XLSX.utils.sheet_to_json`
    plus the per-column parses done in `importExcel`. -/
structure Row where
  lorry : String
  driver : Option String
  phone : Option String
  remarks : Option String
  token : Option Nat
  entryISO : Option Int
  exitISO : Option Int
deriving DecidableEq, Repr

/-- `status = xd ? 'OUT' : 'IN'` (app.js 769). -/
def importStatus (xd : Option Int) : Status :=
  match xd with
  | some _ => Status.OUT
  | none => Status.IN

/-- The value taken by `parseInt(row['Token']) || nxt++` (app.js 773):
    the parsed token when present and non-zero, else the running counter. -/
def importToken (t : Option Nat) (nxt : Nat) : Nat :=
  match t with
  | some v => if v = 0 then nxt else v
  | none => nxt

/-- The counter value after `parseInt(row['Token']) || nxt++`: incremented
    exactly when the fallback was used. -/
def importNext (t : Option Nat) (nxt : Nat) : Nat :=
  match t with
  | some v => if v = 0 then nxt + 1 else nxt
  | none => nxt + 1

/-- `amount: days ? calcAmt(days) : null` (app.js 782) — note the JS
    truthiness test: a zero `days` would also yield null. -/
def importAmount (rate : Nat) (days : Option Nat) : Option Nat :=
  match days with
  | some d => if d = 0 then none else some (calcAmt rate d)
  | none => none

/-- One iteration of the offline `rows.forEach` loop of `importExcel`
    (app.js 763-785), acting on the accumulator `(db, nxt, added)`. -/
def importRow (rate : Nat) (now : Int) (baseId : Nat)
    (acc : List Record × Nat × Nat) (row : Row) : List Record × Nat × Nat :=
  if jsTrim (jsUpper row.lorry) = "" then acc
  else
    (acc.1 ++
      [{ id := baseId + acc.2.2,
         token := some (importToken row.token acc.2.1),
         lorry := jsTrim (jsUpper row.lorry),
         driver := orDashOpt row.driver, phone := orDashOpt row.phone,
         remarks := orDashOpt row.remarks,
         entryISO := row.entryISO.getD now, exitISO := row.exitISO,
         days := row.exitISO.map (fun x => calcDays (row.entryISO.getD now) x),
         amount := importAmount rate
           (row.exitISO.map (fun x => calcDays (row.entryISO.getD now) x)),
         status := importStatus row.exitISO }],
     (importNext row.token acc.2.1, acc.2.2 + 1))

/-- `importExcel` (app.js 726-798). Online, the rows are posted to `/import`
    and the cache is reloaded via `syncFromServer` (a thrown `apiFetch` is
    caught and leaves `db` untouched); offline, the rows are appended to the
    local cache. `baseId` is the `Date.now()` used for offline ids. -/
def importExcel (remote : Option (List Record × Option Nat)) (now : Int)
    (baseId : Nat) (rows : List Row) (s : State) : State :=
  if s.backendOnline then
    match remote with
    | some payload => syncFromServer (some payload) s
    | none => s
  else
    let acc := rows.foldl (importRow s.dailyRate now baseId)
      (s.db, getNextToken s.db, 0)
    saveLocal { s with db := acc.1 }

/-- The status invariant of spec §3: `IN` iff `exitISO`, `days`, `amount`
    are all null; `OUT` iff all three are non-null. -/
def recordInv (r : Record) : Prop :=
  (r.status = Status.IN ↔ (r.exitISO = none ∧ r.days = none ∧ r.amount = none)) ∧
  (r.status = Status.OUT ↔ (r.exitISO ≠ none ∧ r.days ≠ none ∧ r.amount ≠ none))

instance (r : Record) : Decidable (recordInv r) := by
  unfold recordInv
  infer_instance

/- ───────────────────────── helper lemmas ───────────────────────── -/

theorem calcDays_pos (e x : Int) : 1 ≤ calcDays e x := by
  by_cases h : x - e ≤ 0
  · simp [calcDays, h]
  · simp only [calcDays]
    rw [if_neg h]
    exact le_max_left 1 _

theorem calcDays_of_pos {e x : Int} (h : 0 < x - e) :
    calcDays e x = ((x - e).toNat + 86399999) / 86400000 := by
  have hd : ¬ (x - e ≤ 0) := by omega
  have hn1 : 1 ≤ (x - e).toNat := by omega
  have hq1 : 1 ≤ ((x - e).toNat + 86399999) / 86400000 := by
    rw [Nat.le_div_iff_mul_le (by norm_num)]
    omega
  simp only [calcDays]
  rw [if_neg hd, max_eq_right hq1]

theorem findIdx_eq_none {p : α → Bool} :
    ∀ {l : List α}, findIdx p l = none ↔ ∀ a ∈ l, p a = false := by
  intro l
  induction l with
  | nil => simp [findIdx]
  | cons a l ih =>
    by_cases h : p a
    · simp [findIdx, h]
    · simp [findIdx, h, Option.map_eq_none', ih]

theorem findIdx_some_get {p : α → Bool} :
    ∀ {l : List α} {i : Nat}, findIdx p l = some i →
      ∃ a, l.get? i = some a ∧ p a = true := by
  intro l
  induction l with
  | nil => intro i h; simp [findIdx] at h
  | cons a l ih =>
    intro i h
    by_cases hp : p a
    · rw [findIdx, if_pos hp] at h
      cases h
      exact ⟨a, rfl, hp⟩
    · rw [findIdx, if_neg hp] at h
      cases hfl : findIdx p l with
      | none => rw [hfl] at h; simp at h
      | some j =>
        rw [hfl] at h
        simp only [Option.map_some', Option.some.injEq] at h
        obtain ⟨b, hb, hpb⟩ := ih hfl
        exact ⟨b, by simpa [← h] using hb, hpb⟩

theorem set_get?_self :
    ∀ (l : List α) (i : Nat) (a : α), i < l.length →
      (l.set i a).get? i = some a := by
  intro l
  induction l with
  | nil => intro i a h; simp at h
  | cons b l ih =>
    intro i a h
    cases i with
    | zero => rfl
    | succ j => simpa using ih j a (by simpa using h)

theorem set_get?_ne :
    ∀ (l : List α) (i j : Nat) (a : α), i ≠ j →
      (l.set i a).get? j = l.get? j := by
  intro l
  induction l with
  | nil => intro i j a _; simp
  | cons b l ih =>
    intro i j a hij
    cases i with
    | zero =>
      cases j with
      | zero => exact absurd rfl hij
      | succ j' => simp
    | succ i' =>
      cases j with
      | zero => simp
      | succ j' => simpa using ih i' j' a (by omega)

theorem countP_two {p : α → Bool} :
    ∀ {l : List α} {i j : Nat} {a b : α}, i ≠ j →
      l.get? i = some a → l.get? j = some b →
      p a = true → p b = true → 2 ≤ l.countP p := by
  intro l
  induction l with
  | nil => intro i j a b _ hi _ _ _; simp at hi
  | cons c t ih =>
    intro i j a b hij hi hj hpa hpb
    rw [List.countP_cons]
    cases i with
    | zero =>
      cases j with
      | zero => exact absurd rfl hij
      | succ j' =>
        have hac : c = a := by simpa using hi
        subst hac
        have hbt : b ∈ t := List.get?_mem (by simpa using hj)
        have htpos : 0 < t.countP p := List.countP_pos_iff.mpr ⟨b, hbt, hpb⟩
        rw [if_pos hpa]
        omega
    | succ i' =>
      cases j with
      | zero =>
        have hbc : c = b := by simpa using hj
        subst hbc
        have hat : a ∈ t := List.get?_mem (by simpa using hi)
        have htpos : 0 < t.countP p := List.countP_pos_iff.mpr ⟨a, hat, hpa⟩
        rw [if_pos hpb]
        omega
      | succ j' =>
        have := ih (by omega : i' ≠ j') (by simpa using hi) (by simpa using hj)
          hpa hpb
        omega

theorem foldrMax_mem : ∀ (l : List Nat), l ≠ [] → l.foldr max 0 ∈ l := by
  intro l
  induction l with
  | nil => intro h; exact absurd rfl h
  | cons a l ih =>
    intro _
    cases l with
    | nil => simp
    | cons b t =>
      rcases le_total a ((b :: t).foldr max 0) with h | h
      · rw [List.foldr_cons, max_eq_right h]
        exact List.mem_cons_of_mem a (ih (by simp))
      · rw [List.foldr_cons, max_eq_left h]
        exact List.mem_cons_self a _

theorem foldrMax_le : ∀ {l : List Nat} {a : Nat}, a ∈ l → a ≤ l.foldr max 0 := by
  intro l
  induction l with
  | nil => intro a h; simp at h
  | cons b t ih =>
    intro a h
    rcases List.mem_cons.mp h with rfl | ht
    · exact le_max_left _ _
    · exact le_trans (ih ht) (le_max_right _ _)

theorem isEmpty_false_of_ne_nil {l : List α} (h : l ≠ []) :
    l.isEmpty = false := by
  cases l with
  | nil => exact absurd rfl h
  | cons a t => rfl

/-- `getNextToken` on a non-empty collection is an attained maximum plus
    one: it equals some present token value plus one and strictly exceeds
    every present token value (`r.token || 0`). -/
theorem getNextToken_char (db : List Record) (h : db ≠ []) :
    (∃ r ∈ db, getNextToken db = r.token.getD 0 + 1) ∧
    ∀ r ∈ db, r.token.getD 0 < getNextToken db := by
  have hm : db.map (fun r => r.token.getD 0) ≠ [] := by
    simpa [List.map_eq_nil_iff] using h
  have hmem := foldrMax_mem _ hm
  rw [List.mem_map] at hmem
  obtain ⟨r, hr, hrv⟩ := hmem
  have hval : getNextToken db =
      (db.map (fun r => r.token.getD 0)).foldr max 0 + 1 := by
    simp [getNextToken, isEmpty_false_of_ne_nil h]
  constructor
  · exact ⟨r, hr, by rw [hval, hrv]⟩
  · intro r' hr'
    have : r'.token.getD 0 ≤ (db.map (fun r => r.token.getD 0)).foldr max 0 :=
      foldrMax_le (List.mem_map_of_mem _ hr')
    omega

/- ───────────────────────── claim C2 ───────────────────────── -/

/-- Claim C2: the duration calculation follows the elapsed-time policy: for
    exit strictly after entry, `calcDays` is the ceiling of the elapsed time
    in 24-hour (86400000 ms) units, with a minimum of 1 (characterised by
    `(d-1)·86400000 < exit − entry ≤ d·86400000` together with `1 ≤ d`);
    in particular entry at 09:00 on day 1 and exit at 10:00 on day 2
    (25 hours = 90000000 ms later) yields 2 days. -/
theorem calcDays_elapsed_policy :
    (∀ e x : Int, e < x →
      1 ≤ calcDays e x ∧
      x - e ≤ (calcDays e x : Int) * 86400000 ∧
      ((calcDays e x : Int) - 1) * 86400000 < x - e) ∧
    calcDays 0 90000000 = 2 := by
  constructor
  · intro e x hex
    have hpos : 0 < x - e := by omega
    rw [calcDays_of_pos hpos]
    have hn1 : 1 ≤ (x - e).toNat := by omega
    have hdm := Nat.div_add_mod ((x - e).toNat + 86399999) 86400000
    have hmlt : ((x - e).toNat + 86399999) % 86400000 < 86400000 :=
      Nat.mod_lt _ (by norm_num)
    omega
  · decide

/-- Witness for C2 at the spec's example: entry instant 0, exit 25 hours
    later; the elapsed-time bounds hold and the result is exactly 2 days. -/
theorem calcDays_elapsed_policy_witness :
    (1 ≤ calcDays 0 90000000 ∧
      (90000000 : Int) - 0 ≤ (calcDays 0 90000000 : Int) * 86400000 ∧
      ((calcDays 0 90000000 : Int) - 1) * 86400000 < 90000000 - 0) ∧
    calcDays 0 90000000 = 2 :=
  ⟨calcDays_elapsed_policy.1 0 90000000 (by decide),
   calcDays_elapsed_policy.2⟩

/- ───────────────────────── claim C3 ───────────────────────── -/

/-- Claim C3: `calcDays` always returns an integer ≥ 1 — in particular it is
    1 for a same-moment entry/exit, and clamps to 1 (never zero or negative,
    being a total function) when exit is strictly before entry. -/
theorem calcDays_at_least_one (e x : Int) :
    1 ≤ calcDays e x ∧ calcDays e e = 1 ∧ (x < e → calcDays e x = 1) := by
  refine ⟨calcDays_pos e x, ?_, ?_⟩
  · simp [calcDays]
  · intro h
    have hle : x - e ≤ 0 := by omega
    simp [calcDays, hle]

/-- Witness for C3 at entry 3, exit −5 (exit before entry) and at the
    same-moment pair (3, 3). -/
theorem calcDays_at_least_one_witness :
    1 ≤ calcDays 3 (-5) ∧ calcDays 3 3 = 1 ∧ calcDays 3 (-5) = 1 :=
  ⟨(calcDays_at_least_one 3 (-5)).1, (calcDays_at_least_one 3 (-5)).2.1,
   (calcDays_at_least_one 3 (-5)).2.2 (by decide)⟩

/-- Inversion: a successful `processExit` with a failed/absent remote
    response can only have gone through the offline branch, and its result
    is the billing-calculator update of the matched record. -/
theorem processExit_none_ok {now : Int} {tok : Nat} {s s' : State}
    {r' : Record} (h : processExit none now tok s = .ok s' r') :
    ∃ idx r0, findIdx (exitPred tok) s.db = some idx ∧
      s.db.get? idx = some r0 ∧ s.backendOnline = false ∧
      r' = { r0 with
              exitISO := some now,
              days := some (calcDays r0.entryISO now),
              amount := some (calcAmt s.dailyRate (calcDays r0.entryISO now)),
              status := Status.OUT } ∧
      s' = saveLocal { s with db := s.db.set idx r' } := by
  unfold processExit at h
  split at h
  · split at h <;> simp at h
  · rename_i idx hf
    split at h
    · simp at h
    · rename_i r0 hg
      split at h
      · simp at h
      · rename_i hb
        simp only [OpResult.ok.injEq] at h
        obtain ⟨h1, h2⟩ := h
        exact ⟨idx, r0, hf, hg, by simpa using hb, h2.symm, by rw [← h1, h2]⟩

/-- Inversion: a successful `recordEntry` with a failed/absent remote
    response passed both guards and went through the offline branch. -/
theorem recordEntry_none_ok {now : Int} {lorryRaw d p m : String}
    {s s' : State} {r' : Record}
    (h : recordEntry none now lorryRaw d p m s = .ok s' r') :
    jsUpper (jsTrim lorryRaw) ≠ "" ∧
    s.db.find? (dupPred (jsUpper (jsTrim lorryRaw))) = none ∧
    s.backendOnline = false ∧
    r' = { id := now.toNat, token := some (getNextToken s.db),
           lorry := jsUpper (jsTrim lorryRaw), driver := orDash d,
           phone := orDash p, remarks := orDash m, entryISO := now,
           exitISO := none, days := none, amount := none,
           status := Status.IN } ∧
    s' = saveLocal { s with db := r' :: s.db } := by
  unfold recordEntry at h
  split at h
  · simp at h
  · rename_i hl
    split at h
    · simp at h
    · rename_i hfind
      split at h
      · simp at h
      · rename_i hb
        simp only [OpResult.ok.injEq] at h
        obtain ⟨h1, h2⟩ := h
        exact ⟨hl, hfind, by simpa using hb, h2.symm, by rw [← h1, h2]⟩

/- ─────────────── concrete fixtures shared by witnesses ─────────────── -/

def recA : Record :=
  { id := 1, token := some 1, lorry := "KA01AB1234", driver := "--",
    phone := "--", remarks := "--", entryISO := 0, exitISO := none,
    days := none, amount := none, status := Status.IN }

def stateA : State :=
  { db := [recA], dailyRate := 120, backendOnline := false,
    storedDb := [recA], storedRate := 120 }

/-- `recA` after `processExit` at instant 90000000 (25 h after entry). -/
def recA2 : Record :=
  { recA with
    exitISO := some 90000000, days := some 2, amount := some 240,
    status := Status.OUT }

def stateA2 : State :=
  { db := [recA2], dailyRate := 120, backendOnline := false,
    storedDb := [recA2], storedRate := 120 }

def recB : Record :=
  { recA with id := 2, token := some 2, lorry := "KA02CD5678" }

def stateE : State :=
  { db := [recB, recA], dailyRate := 120, backendOnline := false,
    storedDb := [recB, recA], storedRate := 120 }

def stateE2 : State :=
  { db := [recA], dailyRate := 120, backendOnline := false,
    storedDb := [recA], storedRate := 120 }

/-- A record with no token field (`r.token || 0` sees 0). -/
def recG : Record := { recA with id := 7, token := none, lorry := "X1" }

/-- A record with token 0 (falsy in JS). -/
def recH : Record := { recA with id := 8, token := some 0, lorry := "Y2" }

/- ───────────────────────── claim C5 ───────────────────────── -/

/-- Claim C5: `recordEntry` rejects an input whose normalized (trimmed,
    upper-cased) lorry is empty with `InvalidInput`, and an input whose
    normalized lorry matches an existing `IN`-status record with
    `DuplicateActiveVehicle`; in both cases the state (collection,
    settings, persistence) is returned unchanged. -/
theorem recordEntry_rejects (remote : Option Record) (now : Int)
    (lorryRaw d p m : String) (s : State) :
    (jsUpper (jsTrim lorryRaw) = "" →
      recordEntry remote now lorryRaw d p m s = .err .InvalidInput s) ∧
    (jsUpper (jsTrim lorryRaw) ≠ "" →
      (∃ r ∈ s.db, r.status = Status.IN ∧ r.lorry = jsUpper (jsTrim lorryRaw)) →
      recordEntry remote now lorryRaw d p m s =
        .err .DuplicateActiveVehicle s) := by
  constructor
  · intro hl
    unfold recordEntry
    rw [if_pos hl]
  · intro hl hdup
    unfold recordEntry
    rw [if_neg hl]
    obtain ⟨r, hr, hIN, hlor⟩ := hdup
    cases hfind : s.db.find? (dupPred (jsUpper (jsTrim lorryRaw))) with
    | some r0 => rfl
    | none =>
      exfalso
      have hp : dupPred (jsUpper (jsTrim lorryRaw)) r = true := by
        simp [dupPred, hlor, hIN]
      exact absurd hp (List.find?_eq_none.mp hfind r hr)

/-- Witness for C5: with one active record for `KA01AB1234`, an all-blank
    lorry is rejected as invalid and a lower-case duplicate of the active
    lorry is rejected as a duplicate, both leaving the state unchanged. -/
theorem recordEntry_rejects_witness :
    recordEntry none 5 "  " "" "" "" stateA = .err .InvalidInput stateA ∧
    recordEntry none 5 "ka01ab1234" "" "" "" stateA =
      .err .DuplicateActiveVehicle stateA :=
  ⟨(recordEntry_rejects none 5 "  " "" "" "" stateA).1 (by decide),
   (recordEntry_rejects none 5 "ka01ab1234" "" "" "" stateA).2 (by decide)
     ⟨recA, by decide, by decide, by decide⟩⟩

/- ───────────────────────── claim C10 ───────────────────────── -/

/-- Claim C10: `getNextToken` never crashes and never returns a non-positive
    token, also on malformed records: its result is at least 1 and strictly
    greater than every token value present, where an absent (or zero) token
    field is read as 0 (`r.token || 0`). -/
theorem getNextToken_safe (db : List Record) :
    1 ≤ getNextToken db ∧
    (∀ r ∈ db, r.token.getD 0 < getNextToken db) ∧
    ∀ r ∈ db, ∀ t, r.token = some t → t < getNextToken db := by
  by_cases h : db = []
  · subst h
    refine ⟨by decide, ?_, ?_⟩ <;> intro r hr <;> simp at hr
  · obtain ⟨hex, hlt⟩ := getNextToken_char db h
    refine ⟨?_, hlt, ?_⟩
    · obtain ⟨r, _, hv⟩ := hex
      omega
    · intro r hr t ht
      have := hlt r hr
      rw [ht] at this
      simpa using this

/-- Witness for C10 on a collection holding a record with no token and a
    record with token 0: the next token is positive and exceeds both. -/
theorem getNextToken_safe_witness :
    1 ≤ getNextToken [recG, recH] ∧
    recG.token.getD 0 < getNextToken [recG, recH] ∧
    0 < getNextToken [recG, recH] :=
  ⟨(getNextToken_safe [recG, recH]).1,
   (getNextToken_safe [recG, recH]).2.1 recG (by decide),
   (getNextToken_safe [recG, recH]).2.2 recH (by decide) 0 (by decide)⟩

/- ───────────────────────── claim C6 ───────────────────────── -/

/-- Claim C6: `getNextToken` is recomputed from the current collection on
    every call: it is 1 on an empty collection, and on a non-empty one it
    equals an attained maximum token plus one (some present token plus one,
    strictly above all present tokens). Consequently after `deleteRecord`
    the same characterisation holds over the surviving records only, so
    deleting the record holding the maximum token makes the next token fall
    back to the highest remaining token plus one. -/
theorem nextToken_recomputed (s s' : State) (id : Nat) :
    (s.db = [] → getNextToken s.db = 1) ∧
    (s.db ≠ [] →
      (∃ r ∈ s.db, getNextToken s.db = r.token.getD 0 + 1) ∧
      ∀ r ∈ s.db, r.token.getD 0 < getNextToken s.db) ∧
    (deleteRecord true id s = .ok s' →
      (∀ r ∈ s'.db, r ∈ s.db ∧ r.id ≠ id) ∧
      (s'.db = [] → getNextToken s'.db = 1) ∧
      (s'.db ≠ [] →
        (∃ r ∈ s'.db, getNextToken s'.db = r.token.getD 0 + 1) ∧
        ∀ r ∈ s'.db, r.token.getD 0 < getNextToken s'.db)) := by
  refine ⟨?_, ?_, ?_⟩
  · intro h; rw [h]; rfl
  · intro h
    exact getNextToken_char s.db h
  · intro h
    unfold deleteRecord at h
    simp only [Bool.not_true, Bool.and_false, Bool.false_eq_true, if_false,
      DelResult.ok.injEq] at h
    refine ⟨?_, ?_, ?_⟩
    · intro r hr
      rw [← h] at hr
      have := List.mem_filter.mp hr
      exact ⟨this.1, by simpa using this.2⟩
    · intro h0; rw [h0]; rfl
    · intro h0
      exact getNextToken_char s'.db h0

/-- Witness for C6: with tokens 1 and 2 present the next token is 3; after
    deleting the record with token 2 (the maximum) the next token is
    recomputed as 2 — the highest remaining token plus one. -/
theorem nextToken_recomputed_witness :
    getNextToken stateE.db = 3 ∧
    (∃ r ∈ stateE.db, getNextToken stateE.db = r.token.getD 0 + 1) ∧
    (∃ r ∈ stateE2.db, getNextToken stateE2.db = r.token.getD 0 + 1) ∧
    getNextToken stateE2.db = 2 :=
  ⟨by decide,
   ((nextToken_recomputed stateE stateE2 2).2.1 (by decide)).1,
   (((nextToken_recomputed stateE stateE2 2).2.2 (by decide)).2.2
     (by decide)).1,
   by decide⟩

/- ───────────────────────── claim C9 ───────────────────────── -/

/-- Claim C9: the amount computation is exactly `days * rate` with no
    rounding, and the rate used is the one in effect at the call: a
    successful (offline) `processExit` freezes `amount` as
    `calcAmt s.dailyRate days` for the state `s` at the call, and a
    preceding `saveRate` makes exactly its new positive value the
    `dailyRate` (and stored rate) of that state. -/
theorem calcAmt_exact :
    (∀ rate days : Nat, calcAmt rate days = days * rate) ∧
    (∀ (now : Int) (tok : Nat) (s s' : State) (r' : Record),
      processExit none now tok s = .ok s' r' →
      ∃ d, r'.days = some d ∧ r'.amount = some (calcAmt s.dailyRate d)) ∧
    (∀ (v : Nat) (b : Bool) (s : State), 0 < v →
      (saveRate (some v) b s).dailyRate = v ∧
      (saveRate (some v) b s).storedRate = v) := by
  refine ⟨fun _ _ => rfl, ?_, ?_⟩
  · intro now tok s s' r' h
    obtain ⟨idx, r0, _, _, _, hr', _⟩ := processExit_none_ok h
    exact ⟨calcDays r0.entryISO now, by rw [hr'], by rw [hr']⟩
  · intro v b s hv
    have hne : v ≠ 0 := by omega
    simp [saveRate, rateOr120, hne]

/-- Witness for C9: the concrete exit of `recA` at 25 hours charges
    `days = 2` and `amount = calcAmt 120 2 = 240`; a rate change to 200
    takes effect immediately. -/
theorem calcAmt_exact_witness :
    calcAmt 120 2 = 2 * 120 ∧
    (∃ d, recA2.days = some d ∧
      recA2.amount = some (calcAmt stateA.dailyRate d)) ∧
    (saveRate (some 200) false stateA).dailyRate = 200 :=
  ⟨calcAmt_exact.1 120 2,
   calcAmt_exact.2.1 90000000 1 stateA stateA2 recA2 (by decide),
   (calcAmt_exact.2.2 200 false stateA (by decide)).1⟩

/- ───────────────────────── claim C1 ───────────────────────── -/

/-- Claim C1: `processExit` transitions a record from `IN` to `OUT` at most
    once. If a call succeeds (the offline computation, freezing `exitISO`,
    `days`, `amount` and setting `OUT`), a second call with the same token
    fails with `AlreadyExited` and returns the state of the first call
    unchanged — in particular the exited record and its frozen fields are
    exactly as the first call set them. A token matching no record fails
    with `NotFound` and returns the original state unchanged. Tokens are
    assumed not to be duplicated in the collection (the spec's uniqueness
    invariant). -/
theorem processExit_at_most_once
    (now now2 : Int) (tok : Nat) (s s1 : State) (r1 : Record)
    (huniq : s.db.countP (fun r => decide (r.token = some tok)) ≤ 1) :
    (processExit none now tok s = .ok s1 r1 →
      r1 ∈ s1.db ∧ r1.status = Status.OUT ∧ r1.exitISO = some now ∧
      processExit none now2 tok s1 = .err .AlreadyExited s1) ∧
    ((∀ r ∈ s.db, r.token ≠ some tok) →
      processExit none now tok s = .err .NotFound s) := by
  constructor
  · intro h
    obtain ⟨idx, r0, hf, hg, _, hr1, hs1⟩ := processExit_none_ok h
    obtain ⟨a, hga, hpa⟩ := findIdx_some_get hf
    have ha : a = r0 := by
      rw [hg] at hga
      exact (Option.some.inj hga).symm
    subst ha
    have hp0 : a.token = some tok ∧ a.status = Status.IN := by
      simpa [exitPred] using hpa
    have hlt : idx < s.db.length := (List.get?_eq_some.mp hg).1
    have hdb1 : s1.db = s.db.set idx r1 := by rw [hs1]; rfl
    have hget1 : s1.db.get? idx = some r1 := by
      rw [hdb1]
      exact set_get?_self s.db idx r1 hlt
    have hmem1 : r1 ∈ s1.db := List.get?_mem hget1
    have hr1tok : r1.token = some tok := by rw [hr1]; exact hp0.1
    have hr1out : r1.status = Status.OUT := by rw [hr1]
    refine ⟨hmem1, hr1out, by rw [hr1], ?_⟩
    have hf1 : findIdx (exitPred tok) s1.db = none := by
      rw [findIdx_eq_none]
      intro b hb
      cases hpb : exitPred tok b with
      | false => rfl
      | true =>
        exfalso
        have hbt : b.token = some tok ∧ b.status = Status.IN := by
          simpa [exitPred] using hpb
        have hne : b ≠ r1 := by
          intro he
          rw [he, hr1out] at hbt
          simp at hbt
        obtain ⟨j, hj⟩ := List.get?_of_mem hb
        have hjne : j ≠ idx := by
          intro he
          rw [he, hget1] at hj
          exact hne (Option.some.inj hj).symm
        have hjs : s.db.get? j = some b := by
          rw [hdb1, set_get?_ne s.db idx j r1 (Ne.symm hjne)] at hj
          exact hj
        have h2 := countP_two (p := fun r => decide (r.token = some tok))
          (Ne.symm hjne) hg hjs (by simp [hp0.1]) (by simp [hbt.1])
        omega
    have hany : s1.db.any (fun r => decide (r.token = some tok)) = true :=
      List.any_eq_true.mpr ⟨r1, hmem1, by simp [hr1tok]⟩
    unfold processExit
    rw [hf1]
    simp [hany]
  · intro hnone
    have hf : findIdx (exitPred tok) s.db = none := by
      rw [findIdx_eq_none]
      intro a ha
      simp [exitPred, hnone a ha]
    have hany : s.db.any (fun r => decide (r.token = some tok)) = false :=
      List.any_eq_false.mpr (fun a ha => by simp [hnone a ha])
    unfold processExit
    rw [hf]
    simp [hany]

/-- Witness for C1: exiting token 1 of `stateA` yields `stateA2`; a second
    exit of token 1 fails with `AlreadyExited` leaving `stateA2` unchanged,
    and exiting the unknown token 99 fails with `NotFound`. -/
theorem processExit_at_most_once_witness :
    (recA2 ∈ stateA2.db ∧ recA2.status = Status.OUT ∧
      recA2.exitISO = some 90000000 ∧
      processExit none 100000000 1 stateA2 = .err .AlreadyExited stateA2) ∧
    processExit none 90000000 99 stateA = .err .NotFound stateA :=
  ⟨(processExit_at_most_once 90000000 100000000 1 stateA stateA2 recA2
      (by decide)).1 (by decide),
   (processExit_at_most_once 90000000 100000000 99 stateA stateA2 recA2
      (by decide)).2 (by decide)⟩

/- ───────────────────────── claim C4 ───────────────────────── -/

def stateC : State :=
  { db := [], dailyRate := 120, backendOnline := true,
    storedDb := [], storedRate := 120 }

/-- Counterexample for C4 as stated: `saveRate` (the change-rate operation)
    on the online path with a failed remote call does NOT leave the local
    state unchanged — the new rate 200 is already applied to the local
    cache and to localStorage when the remote call fails. -/
theorem saveRate_mutates_despite_remote_failure :
    saveRate (some 200) false stateC ≠ stateC ∧
    (saveRate (some 200) false stateC).dailyRate = 200 ∧
    (saveRate (some 200) false stateC).storedRate = 200 ∧
    stateC.dailyRate = 120 := by decide

/-- Claim C4 (amended): for create entry, process exit, delete and
    clear-all on the online path, a failed remote call surfaces an error
    and leaves the local state (cache and persistence) unchanged. The
    change-rate operation is the exception: it applies the new rate to the
    local cache and to localStorage before contacting the remote, so after
    a failed remote call the new rate is in effect locally (the failure is
    surfaced only as a notification), while the record cache is untouched. -/
theorem onlineFailure_leaves_local_state
    (now : Int) (tok id v idx : Nat) (lorryRaw d p m : String) (s : State)
    (hon : s.backendOnline = true) :
    (jsUpper (jsTrim lorryRaw) ≠ "" →
      s.db.find? (dupPred (jsUpper (jsTrim lorryRaw))) = none →
      recordEntry none now lorryRaw d p m s = .err .RemoteError s) ∧
    (findIdx (exitPred tok) s.db = some idx →
      processExit none now tok s = .err .RemoteError s) ∧
    (deleteRecord false id s = .err .RemoteError s) ∧
    (clearAllData false s = .err .RemoteError s) ∧
    (0 < v →
      (saveRate (some v) false s).dailyRate = v ∧
      (saveRate (some v) false s).storedRate = v ∧
      (saveRate (some v) false s).db = s.db) := by
  refine ⟨?_, ?_, ?_, ?_, ?_⟩
  · intro hl hfind
    simp [recordEntry, hl, hfind, hon]
  · intro hf
    obtain ⟨r0, hg, _⟩ := findIdx_some_get hf
    rw [List.get?_eq_getElem?] at hg
    simp [processExit, hf, hg, hon]
  · simp [deleteRecord, hon]
  · simp [clearAllData, hon]
  · intro hv
    have hne : v ≠ 0 := by omega
    simp [saveRate, rateOr120, hne]

def stateD : State :=
  { db := [recA], dailyRate := 120, backendOnline := true,
    storedDb := [recA], storedRate := 120 }

/-- Witness for the amended C4 on a concrete online state with one active
    record: all four record mutations fail without touching local state,
    and the rate change takes local effect despite the failed remote. -/
theorem onlineFailure_leaves_local_state_witness :
    recordEntry none 5 "TN10X1" "" "" "" stateD = .err .RemoteError stateD ∧
    processExit none 5 1 stateD = .err .RemoteError stateD ∧
    deleteRecord false 1 stateD = .err .RemoteError stateD ∧
    clearAllData false stateD = .err .RemoteError stateD ∧
    (saveRate (some 200) false stateD).dailyRate = 200 :=
  ⟨(onlineFailure_leaves_local_state 5 1 1 200 0 "TN10X1" "" "" "" stateD
      rfl).1 (by decide) (by decide),
   (onlineFailure_leaves_local_state 5 1 1 200 0 "TN10X1" "" "" "" stateD
      rfl).2.1 (by decide),
   (onlineFailure_leaves_local_state 5 1 1 200 0 "TN10X1" "" "" "" stateD
      rfl).2.2.1,
   (onlineFailure_leaves_local_state 5 1 1 200 0 "TN10X1" "" "" "" stateD
      rfl).2.2.2.1,
   ((onlineFailure_leaves_local_state 5 1 1 200 0 "TN10X1" "" "" "" stateD
      rfl).2.2.2.2 (by decide)).1⟩

/- ───────────────────────── claim C7 ───────────────────────── -/

/-- A successful offline `recordEntry`: on an offline state with a valid,
    non-duplicate lorry, the record is created with the locally computed
    token and is persisted (written to the stored copy of the cache). -/
theorem recordEntry_offline_ok (now : Int) (lorryRaw d p m : String)
    (s : State) (hb : s.backendOnline = false)
    (hl : jsUpper (jsTrim lorryRaw) ≠ "")
    (hdup : s.db.find? (dupPred (jsUpper (jsTrim lorryRaw))) = none) :
    ∃ s' r', recordEntry none now lorryRaw d p m s = .ok s' r' ∧
      r'.token = some (getNextToken s.db) ∧ r'.status = Status.IN ∧
      s'.db = r' :: s.db ∧ s'.storedDb = r' :: s.db := by
  refine ⟨saveLocal { s with db :=
      ({ id := now.toNat, token := some (getNextToken s.db),
         lorry := jsUpper (jsTrim lorryRaw), driver := orDash d,
         phone := orDash p, remarks := orDash m, entryISO := now,
         exitISO := none, days := none, amount := none,
         status := Status.IN } : Record) :: s.db },
    { id := now.toNat, token := some (getNextToken s.db),
      lorry := jsUpper (jsTrim lorryRaw), driver := orDash d,
      phone := orDash p, remarks := orDash m, entryISO := now,
      exitISO := none, days := none, amount := none,
      status := Status.IN }, ?_, rfl, rfl, rfl, rfl⟩
  simp [recordEntry, hl, hdup, hb]

/-- Claim C7: a failed `syncFromServer` leaves the whole local state (cache,
    rate and their persisted copies) exactly as it was and only clears the
    online flag; a `createEntry` performed afterwards succeeds via the
    offline path, assigns the token locally from the unchanged cache, and
    persists the new record. -/
theorem reconcile_failure_offline_fallback
    (s : State) (now : Int) (lorryRaw d p m : String)
    (hl : jsUpper (jsTrim lorryRaw) ≠ "")
    (hdup : s.db.find? (dupPred (jsUpper (jsTrim lorryRaw))) = none) :
    (syncFromServer none s).db = s.db ∧
    (syncFromServer none s).storedDb = s.storedDb ∧
    (syncFromServer none s).storedRate = s.storedRate ∧
    (syncFromServer none s).dailyRate = s.dailyRate ∧
    (syncFromServer none s).backendOnline = false ∧
    ∃ s' r',
      recordEntry none now lorryRaw d p m (syncFromServer none s) =
        .ok s' r' ∧
      r'.token = some (getNextToken s.db) ∧ r'.status = Status.IN ∧
      s'.db = r' :: s.db ∧ s'.storedDb = r' :: s.db :=
  ⟨rfl, rfl, rfl, rfl, rfl,
   recordEntry_offline_ok now lorryRaw d p m (syncFromServer none s)
     rfl hl hdup⟩

/-- Witness for C7 on the online state `stateD`: after a failed sync the
    cache still holds `recA`, the online flag is false, and a fresh entry
    for lorry `TN10X1` succeeds offline with the locally computed token 2
    and is persisted. -/
theorem reconcile_failure_offline_fallback_witness :
    (syncFromServer none stateD).db = stateD.db ∧
    (syncFromServer none stateD).backendOnline = false ∧
    ∃ s' r',
      recordEntry none 5 "TN10X1" "" "" "" (syncFromServer none stateD) =
        .ok s' r' ∧
      r'.token = some (getNextToken stateD.db) ∧ r'.status = Status.IN ∧
      s'.db = r' :: stateD.db ∧ s'.storedDb = r' :: stateD.db :=
  ⟨(reconcile_failure_offline_fallback stateD 5 "TN10X1" "" "" ""
      (by decide) (by decide)).1,
   (reconcile_failure_offline_fallback stateD 5 "TN10X1" "" "" ""
      (by decide) (by decide)).2.2.2.2.1,
   (reconcile_failure_offline_fallback stateD 5 "TN10X1" "" "" ""
      (by decide) (by decide)).2.2.2.2.2⟩

/- ───────────────────────── claim C8 ───────────────────────── -/

/-- The offline import loop preserves the status invariant of every record
    in its accumulator (new rows are created `IN` with three nulls, or
    `OUT` with exit instant, positive days and amount all set). -/
theorem importFold_inv (rate : Nat) (now : Int) (baseId : Nat) :
    ∀ (rows : List Row) (acc : List Record × Nat × Nat),
      (∀ r ∈ acc.1, recordInv r) →
      ∀ r ∈ (rows.foldl (importRow rate now baseId) acc).1, recordInv r := by
  intro rows
  induction rows with
  | nil => intro acc h; simpa using h
  | cons row rows ih =>
    intro acc hacc
    rw [List.foldl_cons]
    apply ih
    intro r hr
    unfold importRow at hr
    by_cases hl : jsTrim (jsUpper row.lorry) = ""
    · rw [if_pos hl] at hr
      exact hacc r hr
    · rw [if_neg hl] at hr
      simp only [List.mem_append, List.mem_singleton] at hr
      rcases hr with hr | hr
      · exact hacc r hr
      · subst hr
        cases hx : row.exitISO with
        | none => simp [recordInv, importStatus, importAmount]
        | some x =>
          have hne : calcDays (row.entryISO.getD now) x ≠ 0 := by
            have := calcDays_pos (row.entryISO.getD now) x
            omega
          simp [recordInv, importStatus, importAmount, hne]

/-- Claim C8: the status invariant — `IN` iff `exitISO`/`days`/`amount` are
    all null, `OUT` iff all are non-null — is preserved by every operation
    as computed by this code: a (locally computed) successful entry, a
    (locally computed) successful exit, a delete, and an offline
    spreadsheet import each map a collection of invariant-satisfying
    records to a collection of invariant-satisfying records. -/
theorem lifecycle_status_invariant
    (now : Int) (tok id baseId : Nat) (lorryRaw d p m : String)
    (rows : List Row) (s : State)
    (hinv : ∀ r ∈ s.db, recordInv r) :
    (∀ s' r', recordEntry none now lorryRaw d p m s = .ok s' r' →
      ∀ r ∈ s'.db, recordInv r) ∧
    (∀ s' r', processExit none now tok s = .ok s' r' →
      ∀ r ∈ s'.db, recordInv r) ∧
    (∀ s', deleteRecord true id s = .ok s' → ∀ r ∈ s'.db, recordInv r) ∧
    (s.backendOnline = false →
      ∀ r ∈ (importExcel none now baseId rows s).db, recordInv r) := by
  refine ⟨?_, ?_, ?_, ?_⟩
  · intro s' r' h r hr
    obtain ⟨_, _, _, hr', hs'⟩ := recordEntry_none_ok h
    rw [hs'] at hr
    simp only [saveLocal] at hr
    rcases List.mem_cons.mp hr with hr | hr
    · subst hr
      rw [hr']
      simp [recordInv]
    · exact hinv r hr
  · intro s' r' h r hr
    obtain ⟨idx, r0, _, _, _, hr', hs'⟩ := processExit_none_ok h
    rw [hs'] at hr
    simp only [saveLocal] at hr
    rcases List.mem_or_eq_of_mem_set hr with hr | hr
    · exact hinv r hr
    · subst hr
      rw [hr']
      simp [recordInv]
  · intro s' h r hr
    unfold deleteRecord at h
    simp only [Bool.not_true, Bool.and_false, Bool.false_eq_true, if_false,
      DelResult.ok.injEq] at h
    rw [← h] at hr
    simp only [saveLocal] at hr
    exact hinv r (List.mem_filter.mp hr).1
  · intro hb r hr
    simp only [importExcel, hb, Bool.false_eq_true, if_false, saveLocal] at hr
    exact importFold_inv s.dailyRate now baseId rows
      (s.db, getNextToken s.db, 0) hinv r hr

/-- The record created by the witness entry below (token 2 assigned on top
    of `stateA`, all exit fields null). -/
def recF : Record :=
  { id := 5, token := some 2, lorry := "TN10X1", driver := "--",
    phone := "--", remarks := "--", entryISO := 5, exitISO := none,
    days := none, amount := none, status := Status.IN }

def stateF : State :=
  { db := [recF, recA], dailyRate := 120, backendOnline := false,
    storedDb := [recF, recA], storedRate := 120 }

/-- Witness for C8: the record concretely created by `recordEntry` on
    `stateA` and the record concretely frozen by `processExit` on `stateA`
    both satisfy the status invariant. -/
theorem lifecycle_status_invariant_witness :
    recordInv recF ∧ recordInv recA2 :=
  ⟨(lifecycle_status_invariant 5 1 1 9 "TN10X1" "" "" "" [] stateA
      (by decide)).1 stateF recF (by decide) recF (by decide),
   (lifecycle_status_invariant 90000000 1 1 9 "Z9" "" "" "" [] stateA
      (by decide)).2.1 stateA2 recA2 (by decide) recA2 (by decide)⟩

end Parking
